import Mathlib

/-!
Shallow embedding of `mm-inactive-users` (`main.go`, the complete variant:
the one with `-hard-delete`, `-version`, `ListTeamsAndExit` and the
`delete_at`/`roles` checks).  HTTP transport, URL construction and the
`Authorization` header are plumbing with no logic; network interactions are
modelled by outcome oracles (which response/error each call produces), and
terminal interaction by a list of stdin lines.  Logging is modelled only
where a claim refers to it, as events in a trace.
-/

namespace MMClean

/-- Character-list core of Go `strings.Contains`: is `sub` a prefix of `l`? -/
def listPre : List Char → List Char → Bool
  | [], _ => true
  | _ :: _, [] => false
  | a :: as, b :: bs => a == b && listPre as bs

/-- Does `l` contain `sub` as a contiguous run (Go `strings.Contains` core)? -/
def listSub (sub : List Char) : List Char → Bool
  | [] => sub.isEmpty
  | c :: cs => listPre sub (c :: cs) || listSub sub cs

/-- Go `strings.Contains(s, sub)`. -/
def strContains (s sub : String) : Bool := listSub sub.data s.data

/-- Go `strings.ToUpper` (character-wise upper-casing). -/
def goToUpper (s : String) : String := String.mk (s.data.map Char.toUpper)

/-- Go `strings.TrimSpace`: drop leading and trailing whitespace. -/
def goTrimSpace (s : String) : String :=
  String.mk (((s.data.dropWhile Char.isWhitespace).reverse.dropWhile Char.isWhitespace).reverse)

/-- `strings.TrimSpace(strings.ToUpper(input))` from `promptForKeypress`. -/
def normaliseInput (s : String) : String := goTrimSpace (goToUpper s)

/-- `EpochToDate`: `time.Unix(epoch/1000, 0).Format("02-01-2006")`.  The
DD-MM-YYYY rendering depends on the process time zone and is presentation
only; we model the date by the Unix-second value handed to `time.Unix`,
which determines it. -/
def EpochToDate (epoch : Int) : String := toString (epoch.tdiv 1000)

/-- `DaysAgo`: `int(now.Sub(time.Unix(epoch/1000, 0)).Hours() / 24)`, with
`nowSec` the Unix-second value of `time.Now()`.  Go's `int64` division and
the final `int(...)` conversion both truncate toward zero, hence `tdiv`. -/
def DaysAgo (epoch : Int) (nowSec : Int) : Int := (nowSec - epoch.tdiv 1000).tdiv 86400

/-- One element of the JSON array returned by `GET /api/v4/users`.  A `none`
field is absent from the object; `jsonparser.GetString`/`GetInt` then return
the zero value together with an error that the code discards. -/
structure UserJson where
  id : Option String
  username : Option String
  email : Option String
  firstName : Option String
  lastName : Option String
  lastActivityAt : Option Int
  deleteAt : Option Int
  roles : Option String
deriving DecidableEq

/-- `jsonparser.GetString` with the ignored-error convention: absent ⇒ `""`. -/
def jsonStr (o : Option String) : String := o.getD ""

/-- `jsonparser.GetInt` with the ignored-error convention: absent ⇒ `0`. -/
def jsonInt (o : Option Int) : Int := o.getD 0

/-- The `User` struct accumulated in `usersMap`. -/
structure User where
  UserID : String
  Username : String
  Email : String
  FullName : String
  LastActivityOn : String
  DaysSinceLastActivity : Int
deriving DecidableEq

/-- The record built at the insertion site in `callGetUsers`. -/
def mkUser (u : UserJson) (nowSec : Int) : User :=
  { UserID := jsonStr u.id
    Username := jsonStr u.username
    Email := jsonStr u.email
    FullName := jsonStr u.firstName ++ " " ++ jsonStr u.lastName
    LastActivityOn := EpochToDate (jsonInt u.lastActivityAt)
    DaysSinceLastActivity := DaysAgo (jsonInt u.lastActivityAt) nowSec }

/-- The filter in `callGetUsers`: the `strings.Contains(roles, "system_admin")`
branch skips, otherwise insertion requires `lastActivityAge >= age && deleteAt == 0`. -/
def includeUser (u : UserJson) (age nowSec : Int) : Bool :=
  !(strContains (jsonStr u.roles) "system_admin")
    && decide (DaysAgo (jsonInt u.lastActivityAt) nowSec ≥ age)
    && (jsonInt u.deleteAt == 0)

/-- The candidate map `map[string]User`.  Go maps are unordered; an
association list with keyed overwrite refines them (lookup is the
observable interface). -/
abbrev AssocMap := List (String × User)

/-- `usersMap[id] = user`: overwrite the value when the key is present,
otherwise add the pair. -/
def mapInsert (m : AssocMap) (k : String) (v : User) : AssocMap :=
  match m with
  | [] => [(k, v)]
  | p :: rest => if p.1 == k then (k, v) :: rest else p :: mapInsert rest k v

/-- Map lookup (`usersMap[id]`). -/
def mapLookup (m : AssocMap) (k : String) : Option User :=
  (m.find? (fun p => p.1 == k)).map (fun p => p.2)

/-- The body of the `ArrayEach` callback for one user object. -/
def applyUser (age nowSec : Int) (m : AssocMap) (u : UserJson) : AssocMap :=
  if includeUser u age nowSec then mapInsert m (jsonStr u.id) (mkUser u nowSec) else m

/-- `jsonparser.ArrayEach` over a page of user objects. -/
def applyPage (age nowSec : Int) (us : List UserJson) (m : AssocMap) : AssocMap :=
  us.foldl (applyUser age nowSec) m

/-- Errors surfaced by `callGetUsers` as its `error` result. -/
inductive GoErr where
  | httpBuildErr
  | httpNetErr
  | bodyReadErr
  | parseErr
deriving DecidableEq

/-- The raw response body of one users-page request.  `sentinel` is the
literal `[]`; `wellFormed` parses completely; `malformed` delivers
`parsedInit` elements to the callback before `ArrayEach` reports an error. -/
inductive Body where
  | sentinel
  | wellFormed (users : List UserJson)
  | malformed (parsedInit : List UserJson)
deriving DecidableEq

/-- What one `GET /api/v4/users` attempt produces, before the body is read. -/
inductive FetchOutcome where
  | buildErr
  | netErr
  | readErr
  | success (b : Body)
deriving DecidableEq

/-- The `(bool, error)` pair returned by `callGetUsers`, together with the
state of `usersMap` after the call (the Go function mutates it in place). -/
structure GetUsersResult where
  hasMore : Bool
  err : Option GoErr
  out : AssocMap
deriving DecidableEq

/-- `callGetUsers`: request one page, check the `"[]"` sentinel, otherwise
run the `ArrayEach` filter-and-insert callback over the elements. -/
def callGetUsers (outcome : FetchOutcome) (m : AssocMap) (age nowSec : Int) : GetUsersResult :=
  match outcome with
  | .buildErr => ⟨false, some .httpBuildErr, m⟩
  | .netErr => ⟨false, some .httpNetErr, m⟩
  | .readErr => ⟨false, some .bodyReadErr, m⟩
  | .success .sentinel => ⟨false, none, m⟩
  | .success (.wellFormed us) => ⟨true, none, applyPage age nowSec us m⟩
  | .success (.malformed pre) => ⟨false, some .parseErr, applyPage age nowSec pre m⟩

/-- How the page-fetch loop in `processUsers` ends.  `fatalErr` is the
`log.Fatal("Error calling API: ...")` branch (the process exits with
status 1); `outOfFuel` marks a run of the model longer than its fuel. -/
inductive FetchLoopResult where
  | fatalErr (m : AssocMap)
  | done (m : AssocMap)
  | outOfFuel
deriving DecidableEq

/-- The `for { callGetUsers...; currentPage++ }` loop of `processUsers`,
with `pages i` the outcome of the request for page `i`. -/
def fetchLoop (pages : Nat → FetchOutcome) (age nowSec : Int) :
    Nat → Nat → AssocMap → FetchLoopResult
  | 0, _, _ => .outOfFuel
  | fuel + 1, i, m =>
    let r := callGetUsers (pages i) m age nowSec
    match r.err with
    | some _ => .fatalErr r.out
    | none =>
      if r.hasMore then fetchLoop pages age nowSec fuel (i + 1) r.out else .done r.out

/-- Observable actions of the post-fetch stages (prompting, the reviewer
listing, the per-user deactivate/delete HTTP calls, and the log lines
claims refer to). -/
inductive Event where
  | promptShown
  | invalidInputMsg
  | reviewListing
  | logNoUsersFound
  | logInfoDeactivating
  | logAborting
  | reqBuild (url : String)
  | reqSend (url : String)
  | warnUser (username : String)
deriving DecidableEq

/-- Is the event an `http.NewRequest` for a deactivate/delete call? -/
def isReqBuild : Event → Bool
  | .reqBuild _ => true
  | _ => false

/-- Is the event an `http.DefaultClient.Do` of a deactivate/delete call? -/
def isReqSend : Event → Bool
  | .reqSend _ => true
  | _ => false

/-- Any part of a deactivate/delete HTTP call. -/
def isActionEvent (e : Event) : Bool := isReqBuild e || isReqSend e

/-- `promptForKeypress`: print the prompt, read a line, normalise it, accept
it when it matches an allowed key (Go compares against
`strings.ToUpper(key)`), otherwise print the invalid-input message and loop.
Stdin is the list of lines still unread; an empty list makes `ReadString`
fail, which the function returns as an error (`none`). -/
def promptForKeypress (allowed : List String) : List String →
    List Event × Option (String × List String)
  | [] => ([Event.promptShown], none)
  | line :: rest =>
    if allowed.any (fun k => normaliseInput line == goToUpper k) then
      ([Event.promptShown], some (normaliseInput line, rest))
    else
      (Event.promptShown :: Event.invalidInputMsg :: (promptForKeypress allowed rest).1,
       (promptForKeypress allowed rest).2)

/-- A successful `promptForKeypress` consumed at least one stdin line
(termination measure for the confirmation loop). -/
def promptConsumes (allowed : List String) :
    ∀ (stdin : List String) (evs : List Event) (k : String) (rest : List String),
      promptForKeypress allowed stdin = (evs, some (k, rest)) →
      rest.length < stdin.length := by
  intro stdin
  induction stdin with
  | nil => intro evs k rest h; simp [promptForKeypress] at h
  | cons line tl ih =>
    intro evs k rest h
    simp only [promptForKeypress] at h
    split at h
    · injection h with h1 h2
      injection h2 with h3
      injection h3 with h4 h5
      subst h5
      exact Nat.lt_succ_of_le (Nat.le_refl _)
    · injection h with h1 h2
      have hpt : promptForKeypress allowed tl =
          ((promptForKeypress allowed tl).1, some (k, rest)) := by
        rw [← h2]
      exact Nat.lt_succ_of_lt (ih _ k rest hpt)

/-- What the Mattermost server does with one deactivate/delete request. -/
inductive CallOutcome where
  | buildErr
  | netErr
  | status (code : Nat)
deriving DecidableEq

/-- Did the per-user call fail (request build error, network error, or a
non-200 status)? -/
def userCallFails : CallOutcome → Bool
  | .buildErr => true
  | .netErr => true
  | .status c => !(c == 200)

/-- The request path `deactivateUsers` builds for one user: with the
`?permanent=true` flag under `-hard-delete`, without it otherwise. -/
def deactivateURL (hardDelete : Bool) (uid : String) : String :=
  "/api/v4/users/" ++ uid ++ (if hardDelete then "?permanent=true" else "")

/-- One iteration of the loop in `deactivateUsers`: build the request (a
build error logs a warning and continues), send it (a network error logs a
warning and continues), and log a warning on a non-200 status. -/
def deactivateUserEvents (hardDelete : Bool) (outcome : String → CallOutcome)
    (u : User) : List Event :=
  match outcome u.UserID with
  | .buildErr => [.reqBuild (deactivateURL hardDelete u.UserID), .warnUser u.Username]
  | .netErr => [.reqBuild (deactivateURL hardDelete u.UserID),
      .reqSend (deactivateURL hardDelete u.UserID), .warnUser u.Username]
  | .status c =>
    if c == 200 then
      [.reqBuild (deactivateURL hardDelete u.UserID), .reqSend (deactivateURL hardDelete u.UserID)]
    else
      [.reqBuild (deactivateURL hardDelete u.UserID), .reqSend (deactivateURL hardDelete u.UserID),
       .warnUser u.Username]

/-- `deactivateUsers`: the sequential per-candidate loop (the map's
iteration sequence is the list). -/
def deactivateUsers (hardDelete : Bool) (users : List User)
    (outcome : String → CallOutcome) : List Event :=
  users.flatMap (deactivateUserEvents hardDelete outcome)

/-- The keys accepted at the confirmation prompt. -/
def confirmKeys : List String := ["Y", "N", "L"]

/-- The `loop: for { promptForKeypress; switch }` block of `processUsers`:
`Y` dispatches `deactivateUsers` and breaks, `N` logs and breaks, `L` runs
the reviewer listing and loops; a keypress-read failure is `os.Exit(4)`.
The second component is the exit status when the block calls `os.Exit`. -/
def confirmLoop (hardDelete : Bool) (users : List User)
    (outcome : String → CallOutcome) (stdin : List String) : List Event × Option Nat :=
  match h : promptForKeypress confirmKeys stdin with
  | (evs, none) => (evs, some 4)
  | (evs, some (k, rest)) =>
    if k = "Y" then
      (evs ++ [Event.logInfoDeactivating] ++ deactivateUsers hardDelete users outcome, none)
    else if k = "N" then
      (evs ++ [Event.logAborting], none)
    else if k = "L" then
      (evs ++ [Event.reviewListing] ++ (confirmLoop hardDelete users outcome rest).1,
       (confirmLoop hardDelete users outcome rest).2)
    else
      (evs ++ (confirmLoop hardDelete users outcome rest).1,
       (confirmLoop hardDelete users outcome rest).2)
termination_by stdin.length
decreasing_by
  all_goals exact promptConsumes confirmKeys stdin evs k rest h

/-- What happens inside `ListTeamsAndExit` (called on a 404 team lookup). -/
inductive ListTeamsOutcome where
  | buildErr
  | netErr
  | readErr
  | emptyBody
  | teams (ts : List (String × String))
deriving DecidableEq

/-- `ListTeamsAndExit` ends the process on every path: `os.Exit(10)` on a
request build error, `os.Exit(11)` on a network error, `os.Exit(12)` on a
body read error, `os.Exit(13)` on the `"[]"` body, and `os.Exit(99)` after
printing the team list. -/
def ListTeamsAndExit : ListTeamsOutcome → Nat
  | .buildErr => 10
  | .netErr => 11
  | .readErr => 12
  | .emptyBody => 13
  | .teams _ => 99

/-- What the `GET /api/v4/teams/name/{team}` attempt produces.  On a
received response, `code` is the HTTP status, `listing` is what the
follow-up `ListTeamsAndExit` call would meet (relevant on 404 only),
`readErr` whether `io.ReadAll` fails, and `idField` the `id` string of the
JSON body when present. -/
inductive TeamLookupOutcome where
  | buildErr
  | netErr
  | gotStatus (code : Nat) (listing : ListTeamsOutcome) (readErr : Bool)
      (idField : Option String)
deriving DecidableEq

/-- How `getTeamID` ends: a returned team id, a returned error (the caller
runs `log.Fatal`), or a process exit from inside the function. -/
inductive TeamIDResult where
  | ok (id : String)
  | errReturned
  | exited (code : Nat)
deriving DecidableEq

/-- `getTeamID`: build and send the lookup request (errors are returned),
call `ListTeamsAndExit` on 404, `os.Exit(4)` on any other non-200 status,
then read the body and extract `id` (failures are returned as errors). -/
def getTeamID (o : TeamLookupOutcome) : TeamIDResult :=
  match o with
  | .buildErr => .errReturned
  | .netErr => .errReturned
  | .gotStatus code listing readErr idField =>
    if code == 404 then .exited (ListTeamsAndExit listing)
    else if !(code == 200) then .exited 4
    else if readErr then .errReturned
    else
      match idField with
      | none => .errReturned
      | some id => .ok id

/-- The environment one run interacts with: the team-lookup response, the
response to each users-page request, the lines available on stdin, the
per-user result of deactivate/delete calls, and the Unix-second value of
`time.Now()`. -/
structure RunEnv where
  teamLookup : TeamLookupOutcome
  pages : Nat → FetchOutcome
  stdin : List String
  callOutcome : String → CallOutcome
  nowSec : Int

/-- `processUsers`: resolve the team id (`log.Fatal`, i.e. exit status 1,
on a returned error or an empty id), run the page-fetch loop
(`log.Fatal` on an API error), then: log-and-return when no candidates
were found, run the reviewer listing under `-dry-run`, and otherwise enter
the confirmation loop.  The result is `none` when the model's fuel is
exhausted, otherwise the event trace plus the exit status if the run ended
in `os.Exit`/`log.Fatal` (`none` = the function returned `nil`). -/
def processUsers (env : RunEnv) (age : Int) (dryrun hardDelete : Bool)
    (fuel : Nat) : Option (List Event × Option Nat) :=
  match getTeamID env.teamLookup with
  | .exited c => some ([], some c)
  | .errReturned => some ([], some 1)
  | .ok id =>
    if id = "" then some ([], some 1)
    else
      match fetchLoop env.pages age env.nowSec fuel 0 [] with
      | .outOfFuel => none
      | .fatalErr _ => some ([], some 1)
      | .done m =>
        if m.length = 0 then some ([Event.logNoUsersFound], none)
        else if dryrun then some ([Event.reviewListing], none)
        else some (confirmLoop hardDelete (m.map (fun p => p.2)) env.callOutcome env.stdin)

/-- The exit status of `main` from the `-version` check on, assuming flag
parsing and the environment fallbacks completed: `-version` prints and
exits 0; missing required configuration exits 1 after `flag.Usage`;
otherwise `processUsers` runs, an exit inside it ends the process with
that status, a non-nil returned error would exit 2 (`processUsers` returns
`nil` on every path, so this branch is dead), and `main` falling through
exits 0.  The phases before this point (`flag.Parse` and the `MM_DEBUG`
fallback, each of which can itself end the process with status 2) are
layered on top in `fullMainExitCode`. -/
def mainExitCode (versionFlag missingConfig : Bool) (env : RunEnv) (age : Int)
    (dryrun hardDelete : Bool) (fuel : Nat) : Option Nat :=
  if versionFlag then some 0
  else if missingConfig then some 1
  else
    match processUsers env age dryrun hardDelete fuel with
    | none => none
    | some (_, some c) => some c
    | some (_, none) => some 0

/-- A Go `interface{}` value as handled around `getEnvWithDefault`: the
string from `os.LookupEnv` or the caller's default. -/
inductive GoValue where
  | strVal (s : String)
  | boolVal (b : Bool)
deriving DecidableEq

/-- `getEnvWithDefault`: the supplied default when the variable is unset,
otherwise the environment string. -/
def getEnvWithDefault (envVal : Option String) (defaultValue : GoValue) : GoValue :=
  match envVal with
  | none => defaultValue
  | some value => .strVal value

/-- The `.(bool)` type assertion: `none` models the run-time panic when the
interface holds a string. -/
def assertToBool : GoValue → Option Bool
  | .boolVal b => some b
  | .strVal _ => none

/-- The `-debug` fallback in `main`:
`if !DebugFlag { DebugFlag = getEnvWithDefault("MM_DEBUG", debugMode).(bool) }`
with `debugMode` still `false` at that point.  `none` models a panic. -/
def debugFlagFallback (debugFlagCLI : Bool) (mmDebugEnv : Option String) : Option Bool :=
  if debugFlagCLI then some true
  else assertToBool (getEnvWithDefault mmDebugEnv (.boolVal false))

/-- The exit status of the whole process, including the phases
`mainExitCode` abstracts from: `flag.Parse` is called on the default flag
set, whose error handling is `flag.ExitOnError`, so a command-line parse
error exits 2; then `-version` exits 0; then the environment fallbacks run,
and a failed `.(bool)` assertion on `MM_DEBUG` is an unrecovered panic,
which terminates a Go process with status 2; the string assertions for
`MM_URL`/`MM_PORT`/`MM_SCHEME`/`MM_TOKEN` always hold (the default and the
looked-up value are both strings).  The rest of the run is `mainExitCode`
with the `-version` branch already resolved. -/
def fullMainExitCode (flagParseFails versionFlag debugFlagCLI : Bool)
    (mmDebugEnv : Option String) (missingConfig : Bool) (env : RunEnv) (age : Int)
    (dryrun hardDelete : Bool) (fuel : Nat) : Option Nat :=
  if flagParseFails then some 2
  else if versionFlag then some 0
  else
    match debugFlagFallback debugFlagCLI mmDebugEnv with
    | none => some 2
    | some _ => mainExitCode false missingConfig env age dryrun hardDelete fuel

/-- The value the page's callback leaves under key `k`: the record of the
last element of `us` that passes the filter and has identifier `k`
(`none` when no such element exists). -/
def pageValue (age nowSec : Int) (us : List UserJson) (k : String) : Option User :=
  match us with
  | [] => none
  | u :: rest =>
    match pageValue age nowSec rest k with
    | some v => some v
    | none =>
      if includeUser u age nowSec && (jsonStr u.id == k) then some (mkUser u nowSec) else none

/-- A non-admin, non-deleted user whose last activity was exactly `d` days
(of 86400 s) before `nowSec`, as it appears in a users-page response. -/
def sampleActiveUser (d nowSec : Int) : UserJson :=
  { id := some "u1", username := some "user1", email := some "u1@example.com",
    firstName := some "First", lastName := some "Last",
    lastActivityAt := some ((nowSec - d * 86400) * 1000),
    deleteAt := some 0, roles := some "system_user" }

/- ------------------------------------------------------------------ -/
/- Helper lemmas                                                      -/
/- ------------------------------------------------------------------ -/

theorem mapLookup_cons (p : String × User) (rest : AssocMap) (q : String) :
    mapLookup (p :: rest) q = if p.1 = q then some p.2 else mapLookup rest q := by
  by_cases h : p.1 = q
  · simp [mapLookup, List.find?, h]
  · have hb : (p.1 == q) = false := by simpa using h
    simp [mapLookup, List.find?, hb, h]

theorem mapLookup_mapInsert (m : AssocMap) (k : String) (v : User) (q : String) :
    mapLookup (mapInsert m k v) q = if q = k then some v else mapLookup m q := by
  induction m with
  | nil =>
    have h0 : mapInsert [] k v = [(k, v)] := rfl
    rw [h0, mapLookup_cons]
    by_cases hq : q = k
    · subst hq; simp
    · simp [hq, Ne.symm hq]
  | cons p rest ih =>
    by_cases hp : p.1 = k
    · have hb : (p.1 == k) = true := by simpa using hp
      simp only [mapInsert, hb, if_true]
      rw [mapLookup_cons, mapLookup_cons]
      by_cases hq : q = k
      · subst hq; simp
      · simp [hq, Ne.symm hq, hp]
    · have hb : (p.1 == k) = false := by simpa using hp
      simp only [mapInsert, hb, Bool.false_eq_true, if_false]
      rw [mapLookup_cons, ih, mapLookup_cons]
      by_cases hq : q = k
      · subst hq; simp [hp]
      · simp [hq]

theorem mapLookup_applyPage (age nowSec : Int) (us : List UserJson) :
    ∀ (m : AssocMap) (k : String),
      mapLookup (applyPage age nowSec us m) k =
        match pageValue age nowSec us k with
        | some v => some v
        | none => mapLookup m k := by
  induction us with
  | nil => intro m k; simp [applyPage, pageValue]
  | cons u rest ih =>
    intro m k
    have hcons : applyPage age nowSec (u :: rest) m =
        applyPage age nowSec rest (applyUser age nowSec m u) := rfl
    rw [hcons, ih]
    simp only [pageValue]
    cases hpv : pageValue age nowSec rest k with
    | some v => simp
    | none =>
      simp only [applyUser]
      split
      · next hinc =>
        rw [mapLookup_mapInsert]
        simp only [hinc, Bool.true_and]
        by_cases hk : jsonStr u.id = k
        · simp [hk]
        · have hb : (jsonStr u.id == k) = false := by simpa using hk
          simp [hb, Ne.symm hk]
      · next hinc =>
        have hincf : includeUser u age nowSec = false := by
          cases h : includeUser u age nowSec
          · rfl
          · exact absurd h hinc
        simp [hincf]

theorem DaysAgo_daysBefore (d nowSec : Int) :
    DaysAgo ((nowSec - d * 86400) * 1000) nowSec = d := by
  unfold DaysAgo
  rw [Int.mul_tdiv_cancel _ (by norm_num : (1000 : Int) ≠ 0), sub_sub_cancel,
    Int.mul_tdiv_cancel _ (by norm_num : (86400 : Int) ≠ 0)]

theorem promptForKeypress_events (allowed : List String) :
    ∀ (stdin : List String) (e : Event), e ∈ (promptForKeypress allowed stdin).1 →
      e = Event.promptShown ∨ e = Event.invalidInputMsg := by
  intro stdin
  induction stdin with
  | nil => intro e he; simp [promptForKeypress] at he; simp [he]
  | cons line tl ih =>
    intro e he
    simp only [promptForKeypress] at he
    split at he
    · simp at he; simp [he]
    · simp only [List.mem_cons] at he
      rcases he with h | h | h
      · simp [h]
      · simp [h]
      · exact ih e h

theorem promptForKeypress_key (allowed : List String) :
    ∀ (stdin : List String) (evs : List Event) (k : String) (rest : List String),
      promptForKeypress allowed stdin = (evs, some (k, rest)) →
      allowed.any (fun a => k == goToUpper a) = true := by
  intro stdin
  induction stdin with
  | nil => intro evs k rest h; simp [promptForKeypress] at h
  | cons line tl ih =>
    intro evs k rest h
    simp only [promptForKeypress] at h
    split at h
    · next hcond =>
      injection h with h1 h2
      injection h2 with h3
      injection h3 with h4 h5
      subst h4
      exact hcond
    · injection h with h1 h2
      have hpt : promptForKeypress allowed tl =
          ((promptForKeypress allowed tl).1, some (k, rest)) := by rw [← h2]
      exact ih _ k rest hpt

theorem confirmLoop_eq_none (hd : Bool) (us : List User) (oc : String → CallOutcome)
    (stdin : List String) (evs : List Event)
    (h : promptForKeypress confirmKeys stdin = (evs, none)) :
    confirmLoop hd us oc stdin = (evs, some 4) := by
  unfold confirmLoop
  split
  · next evs' heq => rw [h] at heq; injection heq with h1 h2; rw [h1]
  · next evs' k rest heq => rw [h] at heq; injection heq with h1 h2; simp at h2

theorem confirmLoop_eq_Y (hd : Bool) (us : List User) (oc : String → CallOutcome)
    (stdin : List String) (evs : List Event) (rest : List String)
    (h : promptForKeypress confirmKeys stdin = (evs, some ("Y", rest))) :
    confirmLoop hd us oc stdin =
      (evs ++ [Event.logInfoDeactivating] ++ deactivateUsers hd us oc, none) := by
  unfold confirmLoop
  split
  · next evs' heq => rw [h] at heq; injection heq with h1 h2; simp at h2
  · next evs' k' rest' heq =>
    rw [h] at heq
    injection heq with h1 h2
    injection h2 with h3
    injection h3 with h4 h5
    subst h1; subst h4
    simp

theorem confirmLoop_eq_N (hd : Bool) (us : List User) (oc : String → CallOutcome)
    (stdin : List String) (evs : List Event) (rest : List String)
    (h : promptForKeypress confirmKeys stdin = (evs, some ("N", rest))) :
    confirmLoop hd us oc stdin = (evs ++ [Event.logAborting], none) := by
  unfold confirmLoop
  split
  · next evs' heq => rw [h] at heq; injection heq with h1 h2; simp at h2
  · next evs' k' rest' heq =>
    rw [h] at heq
    injection heq with h1 h2
    injection h2 with h3
    injection h3 with h4 h5
    subst h1; subst h4
    simp

theorem confirmLoop_eq_L (hd : Bool) (us : List User) (oc : String → CallOutcome)
    (stdin : List String) (evs : List Event) (rest : List String)
    (h : promptForKeypress confirmKeys stdin = (evs, some ("L", rest))) :
    confirmLoop hd us oc stdin =
      (evs ++ [Event.reviewListing] ++ (confirmLoop hd us oc rest).1,
       (confirmLoop hd us oc rest).2) := by
  conv_lhs => unfold confirmLoop
  split
  · next evs' heq => rw [h] at heq; injection heq with h1 h2; simp at h2
  · next evs' k' rest' heq =>
    rw [h] at heq
    injection heq with h1 h2
    injection h2 with h3
    injection h3 with h4 h5
    subst h1; subst h4; subst h5
    simp

theorem confirmLoop_exitCode (hd : Bool) (us : List User) (oc : String → CallOutcome) :
    ∀ (n : Nat) (stdin : List String), stdin.length ≤ n →
      ∀ c, (confirmLoop hd us oc stdin).2 = some c → c = 4 := by
  intro n
  induction n with
  | zero =>
    intro stdin hlen c hc
    have hnil : stdin = [] := List.length_eq_zero.mp (Nat.le_zero.mp hlen)
    subst hnil
    rw [confirmLoop_eq_none hd us oc [] [Event.promptShown] rfl] at hc
    injection hc with h1
    exact h1.symm
  | succ n ih =>
    intro stdin hlen c hc
    rcases hpk : promptForKeypress confirmKeys stdin with ⟨evs, r⟩
    cases r with
    | none =>
      rw [confirmLoop_eq_none hd us oc stdin evs hpk] at hc
      injection hc with h1
      exact h1.symm
    | some kr =>
      rcases kr with ⟨k, rest⟩
      have hk := promptForKeypress_key confirmKeys stdin evs k rest hpk
      have hY : goToUpper "Y" = "Y" := by decide
      have hN : goToUpper "N" = "N" := by decide
      have hL : goToUpper "L" = "L" := by decide
      simp only [confirmKeys, List.any_cons, List.any_nil, hY, hN, hL, Bool.or_false,
        Bool.or_eq_true, beq_iff_eq] at hk
      have hrest : rest.length ≤ n := by
        have := promptConsumes confirmKeys stdin evs k rest hpk
        omega
      rcases hk with hk | hk | hk
      · subst hk
        rw [confirmLoop_eq_Y hd us oc stdin evs rest hpk] at hc
        simp at hc
      · subst hk
        rw [confirmLoop_eq_N hd us oc stdin evs rest hpk] at hc
        simp at hc
      · subst hk
        rw [confirmLoop_eq_L hd us oc stdin evs rest hpk] at hc
        exact ih rest hrest c hc

theorem getTeamID_exit (o : TeamLookupOutcome) (c : Nat)
    (h : getTeamID o = .exited c) :
    c = 4 ∨ c = 10 ∨ c = 11 ∨ c = 12 ∨ c = 13 ∨ c = 99 := by
  cases o with
  | buildErr => simp [getTeamID] at h
  | netErr => simp [getTeamID] at h
  | gotStatus code listing readErr idField =>
    simp only [getTeamID] at h
    split at h
    · injection h with h1
      cases listing <;> simp [ListTeamsAndExit] at h1 <;> omega
    · split at h
      · injection h with h1; omega
      · split at h
        · exact absurd h (by simp)
        · split at h <;> simp at h

theorem processUsers_cases (env : RunEnv) (age : Int) (dr hd : Bool) (fuel : Nat) :
    (∃ c', getTeamID env.teamLookup = .exited c' ∧
        processUsers env age dr hd fuel = some ([], some c')) ∨
    processUsers env age dr hd fuel = some ([], some 1) ∨
    processUsers env age dr hd fuel = none ∨
    processUsers env age dr hd fuel = some ([Event.logNoUsersFound], none) ∨
    (dr = true ∧ processUsers env age dr hd fuel = some ([Event.reviewListing], none)) ∨
    (∃ m : AssocMap, dr = false ∧ m.length ≠ 0 ∧
      processUsers env age dr hd fuel =
        some (confirmLoop hd (m.map (fun p => p.2)) env.callOutcome env.stdin)) := by
  cases hgt : getTeamID env.teamLookup with
  | exited c' =>
    refine Or.inl ⟨c', rfl, ?_⟩
    unfold processUsers
    rw [hgt]
  | errReturned =>
    refine Or.inr (Or.inl ?_)
    unfold processUsers
    rw [hgt]
  | ok id =>
    by_cases hid : id = ""
    · refine Or.inr (Or.inl ?_)
      unfold processUsers
      rw [hgt]
      simp [hid]
    · cases hfl : fetchLoop env.pages age env.nowSec fuel 0 [] with
      | outOfFuel =>
        refine Or.inr (Or.inr (Or.inl ?_))
        unfold processUsers
        rw [hgt]
        simp [hid, hfl]
      | fatalErr m =>
        refine Or.inr (Or.inl ?_)
        unfold processUsers
        rw [hgt]
        simp [hid, hfl]
      | done m =>
        by_cases hm : m.length = 0
        · refine Or.inr (Or.inr (Or.inr (Or.inl ?_)))
          unfold processUsers
          rw [hgt]
          simp [hid, hfl, hm]
        · cases dr with
          | true =>
            refine Or.inr (Or.inr (Or.inr (Or.inr (Or.inl ⟨rfl, ?_⟩))))
            unfold processUsers
            rw [hgt]
            simp [hid, hfl, hm]
          | false =>
            refine Or.inr (Or.inr (Or.inr (Or.inr (Or.inr ⟨m, rfl, hm, ?_⟩))))
            unfold processUsers
            rw [hgt]
            simp [hid, hfl, hm]

theorem processUsers_exitCode (env : RunEnv) (age : Int) (dr hd : Bool) (fuel : Nat)
    (tr : List Event) (c : Nat)
    (h : processUsers env age dr hd fuel = some (tr, some c)) :
    c = 1 ∨ c = 4 ∨ c = 10 ∨ c = 11 ∨ c = 12 ∨ c = 13 ∨ c = 99 := by
  rcases processUsers_cases env age dr hd fuel with
    ⟨c', hgt, hp⟩ | hp | hp | hp | ⟨-, hp⟩ | ⟨m, -, -, hp⟩
  · rw [hp] at h
    injection h with h1
    injection h1 with h2 h3
    injection h3 with h4
    subst h4
    rcases getTeamID_exit env.teamLookup c' hgt with h | h | h | h | h | h <;> omega
  · rw [hp] at h
    injection h with h1
    injection h1 with h2 h3
    injection h3 with h4
    omega
  · rw [hp] at h; exact absurd h (by simp)
  · rw [hp] at h
    injection h with h1
    injection h1 with h2 h3
    exact absurd h3 (by simp)
  · rw [hp] at h
    injection h with h1
    injection h1 with h2 h3
    exact absurd h3 (by simp)
  · rw [hp] at h
    injection h with h1
    have h2 : (confirmLoop hd (m.map (fun p => p.2)) env.callOutcome env.stdin).2 =
        some c := by rw [h1]
    have := confirmLoop_exitCode hd (m.map (fun p => p.2)) env.callOutcome
      env.stdin.length env.stdin (Nat.le_refl _) c h2
    omega

/- ------------------------------------------------------------------ -/
/- Claim theorems                                                     -/
/- ------------------------------------------------------------------ -/

/-- C1: `callGetUsers` adds a fetched user to the candidate set iff its
inactivity age is at least the threshold, its roles string does not contain
`system_admin`, and `delete_at` is zero; a user at exactly the threshold is
included, one a day younger excluded, and admins and already-deactivated
users are excluded regardless of age. -/
theorem callGetUsers_inclusion_rule (u : UserJson) (age nowSec : Int) (m : AssocMap) :
    (includeUser u age nowSec = true ↔
      (age ≤ DaysAgo (jsonInt u.lastActivityAt) nowSec ∧
       strContains (jsonStr u.roles) "system_admin" = false ∧
       jsonInt u.deleteAt = 0)) ∧
    (includeUser u age nowSec = true →
      applyUser age nowSec m u = mapInsert m (jsonStr u.id) (mkUser u nowSec)) ∧
    (includeUser u age nowSec = false → applyUser age nowSec m u = m) ∧
    (∀ T : Int, includeUser (sampleActiveUser T nowSec) T nowSec = true) ∧
    (∀ T : Int, includeUser (sampleActiveUser (T - 1) nowSec) T nowSec = false) ∧
    (∀ v : UserJson, strContains (jsonStr v.roles) "system_admin" = true →
      includeUser v age nowSec = false) ∧
    (∀ v : UserJson, jsonInt v.deleteAt ≠ 0 → includeUser v age nowSec = false) := by
  have hs : strContains "system_user" "system_admin" = false := by decide
  refine ⟨?_, ?_, ?_, ?_, ?_, ?_, ?_⟩
  · constructor
    · intro h
      unfold includeUser at h
      rw [Bool.and_eq_true, Bool.and_eq_true] at h
      obtain ⟨⟨hA, hge⟩, he⟩ := h
      refine ⟨?_, by simpa using hA, by simpa using he⟩
      have := of_decide_eq_true hge
      omega
    · rintro ⟨h1, h2, h3⟩
      unfold includeUser
      rw [Bool.and_eq_true, Bool.and_eq_true]
      refine ⟨⟨by simp [h2], decide_eq_true ?_⟩, by simp [h3]⟩
      omega
  · intro h
    simp [applyUser, h]
  · intro h
    simp [applyUser, h]
  · intro T
    simp [includeUser, sampleActiveUser, jsonStr, jsonInt, DaysAgo_daysBefore, hs]
  · intro T
    simp [includeUser, sampleActiveUser, jsonStr, jsonInt, DaysAgo_daysBefore, hs]
  · intro v hv
    simp [includeUser, hv]
  · intro v hv
    have hb : (jsonInt v.deleteAt == 0) = false := by simpa using hv
    simp [includeUser, hb]

theorem callGetUsers_inclusion_rule_witness :
    applyUser 3 1000000 [] (sampleActiveUser 3 1000000) =
      mapInsert [] (jsonStr (sampleActiveUser 3 1000000).id)
        (mkUser (sampleActiveUser 3 1000000) 1000000) ∧
    includeUser (sampleActiveUser 3 1000000) 3 1000000 = true ∧
    includeUser (sampleActiveUser 2 1000000) 3 1000000 = false := by
  refine ⟨(callGetUsers_inclusion_rule (sampleActiveUser 3 1000000) 3 1000000 []).2.1
      (by decide),
    (callGetUsers_inclusion_rule (sampleActiveUser 3 1000000) 3 1000000 []).2.2.2.1 3, ?_⟩
  have h := (callGetUsers_inclusion_rule (sampleActiveUser 3 1000000) 3 1000000 []).2.2.2.2.1 3
  have h32 : (3 : Int) - 1 = 2 := by norm_num
  rw [h32] at h
  exact h

/-- C2: `callGetUsers` signals "no more pages" (`false` with no error) iff
the raw body is the `"[]"` sentinel, mutating nothing in that case; every
successfully parsed non-sentinel page (even one whose elements are all
filtered out) yields `true`, and the fetch loop then requests page `i+1`,
stopping the first time the sentinel is observed. -/
theorem callGetUsers_pagination (outcome : FetchOutcome) (m : AssocMap)
    (age nowSec : Int) (pages : Nat → FetchOutcome) (fuel i : Nat) :
    (callGetUsers (.success .sentinel) m age nowSec = ⟨false, none, m⟩) ∧
    (((callGetUsers outcome m age nowSec).hasMore = false ∧
      (callGetUsers outcome m age nowSec).err = none) ↔ outcome = .success .sentinel) ∧
    (∀ us : List UserJson, callGetUsers (.success (.wellFormed us)) m age nowSec =
      ⟨true, none, applyPage age nowSec us m⟩) ∧
    (pages i = .success .sentinel →
      fetchLoop pages age nowSec (fuel + 1) i m = .done m) ∧
    (∀ us : List UserJson, pages i = .success (.wellFormed us) →
      fetchLoop pages age nowSec (fuel + 1) i m =
        fetchLoop pages age nowSec fuel (i + 1) (applyPage age nowSec us m)) := by
  refine ⟨rfl, ?_, fun us => rfl, ?_, ?_⟩
  · cases outcome with
    | buildErr => simp [callGetUsers]
    | netErr => simp [callGetUsers]
    | readErr => simp [callGetUsers]
    | success b => cases b <;> simp [callGetUsers]
  · intro h
    simp [fetchLoop, h, callGetUsers]
  · intro us h
    simp [fetchLoop, h, callGetUsers]

theorem callGetUsers_pagination_witness :
    fetchLoop (fun _ => FetchOutcome.success Body.sentinel) 180 0 1 0 [] =
      FetchLoopResult.done [] ∧
    fetchLoop (fun _ => FetchOutcome.success (Body.wellFormed [])) 180 0 2 1 [] =
      fetchLoop (fun _ => FetchOutcome.success (Body.wellFormed [])) 180 0 1 2
        (applyPage 180 0 [] []) :=
  ⟨(callGetUsers_pagination (.success .sentinel) [] 180 0
      (fun _ => FetchOutcome.success Body.sentinel) 0 0).2.2.2.1 rfl,
   (callGetUsers_pagination (.success .sentinel) [] 180 0
      (fun _ => FetchOutcome.success (Body.wellFormed [])) 1 1).2.2.2.2 [] rfl⟩

/-- C3: under `-dry-run`, `processUsers` issues no deactivate/delete HTTP
call and performs nothing beyond the reviewer listing (or the no-users
log), whatever the environment produced. -/
theorem dryRun_no_action (env : RunEnv) (age : Int) (hd : Bool) (fuel : Nat)
    (tr : List Event) (ec : Option Nat)
    (h : processUsers env age true hd fuel = some (tr, ec)) :
    (∀ e ∈ tr, isActionEvent e = false) ∧
    (∀ e ∈ tr, e = Event.reviewListing ∨ e = Event.logNoUsersFound) := by
  rcases processUsers_cases env age true hd fuel with
    ⟨c', hgt, hp⟩ | hp | hp | hp | ⟨-, hp⟩ | ⟨m, hdr, -, -⟩
  · rw [hp] at h
    injection h with h1
    injection h1 with h2 h3
    subst h2
    constructor <;> intro e he <;> simp at he
  · rw [hp] at h
    injection h with h1
    injection h1 with h2 h3
    subst h2
    constructor <;> intro e he <;> simp at he
  · rw [hp] at h
    exact absurd h (by simp)
  · rw [hp] at h
    injection h with h1
    injection h1 with h2 h3
    subst h2
    constructor <;> intro e he <;> simp at he <;>
      simp [he, isActionEvent, isReqBuild, isReqSend]
  · rw [hp] at h
    injection h with h1
    injection h1 with h2 h3
    subst h2
    constructor <;> intro e he <;> simp at he <;>
      simp [he, isActionEvent, isReqBuild, isReqSend]
  · exact absurd hdr (by simp)

theorem dryRun_no_action_witness :
    (∀ e ∈ ([Event.reviewListing] : List Event), isActionEvent e = false) ∧
    (∀ e ∈ ([Event.reviewListing] : List Event),
      e = Event.reviewListing ∨ e = Event.logNoUsersFound) :=
  dryRun_no_action
    { teamLookup := .gotStatus 200 (.teams []) false (some "tid"),
      pages := fun i => if i = 0 then
          .success (.wellFormed [sampleActiveUser 200 86400000000]) else .success .sentinel,
      stdin := [], callOutcome := fun _ => .status 200, nowSec := 86400000000 }
    180 false 3 [Event.reviewListing] none (by decide)

/- Per-candidate counting facts about `deactivateUsers` (used by the C4
theorem). -/

theorem deactivateUserEvents_countBuild (hd : Bool) (oc : String → CallOutcome)
    (u : User) : (deactivateUserEvents hd oc u).countP isReqBuild = 1 := by
  unfold deactivateUserEvents
  cases oc u.UserID with
  | buildErr => simp [List.countP_cons, isReqBuild]
  | netErr => simp [List.countP_cons, isReqBuild, isReqSend]
  | status c =>
    by_cases hc : (c == 200) = true
    · simp [hc, List.countP_cons, isReqBuild, isReqSend]
    · have hc' : (c == 200) = false := by simpa using hc
      simp [hc', List.countP_cons, isReqBuild, isReqSend]

theorem deactivateUserEvents_countSend (hd : Bool) (oc : String → CallOutcome)
    (u : User) : (deactivateUserEvents hd oc u).countP isReqSend ≤ 1 := by
  unfold deactivateUserEvents
  cases oc u.UserID with
  | buildErr => simp [List.countP_cons, isReqSend]
  | netErr => simp [List.countP_cons, isReqBuild, isReqSend]
  | status c =>
    by_cases hc : (c == 200) = true
    · simp [hc, List.countP_cons, isReqBuild, isReqSend]
    · have hc' : (c == 200) = false := by simpa using hc
      simp [hc', List.countP_cons, isReqBuild, isReqSend]

theorem deactivateUsers_countBuild (hd : Bool) (oc : String → CallOutcome) :
    ∀ users : List User, (deactivateUsers hd users oc).countP isReqBuild = users.length := by
  intro users
  induction users with
  | nil => simp [deactivateUsers]
  | cons v rest ih =>
    have hcons : deactivateUsers hd (v :: rest) oc =
        deactivateUserEvents hd oc v ++ deactivateUsers hd rest oc := by
      simp [deactivateUsers]
    rw [hcons, List.countP_append, ih, deactivateUserEvents_countBuild]
    simp [Nat.add_comm]

theorem deactivateUsers_countSend (hd : Bool) (oc : String → CallOutcome) :
    ∀ users : List User, (deactivateUsers hd users oc).countP isReqSend ≤ users.length := by
  intro users
  induction users with
  | nil => simp [deactivateUsers]
  | cons v rest ih =>
    have hcons : deactivateUsers hd (v :: rest) oc =
        deactivateUserEvents hd oc v ++ deactivateUsers hd rest oc := by
      simp [deactivateUsers]
    rw [hcons, List.countP_append]
    have := deactivateUserEvents_countSend hd oc v
    simp only [List.length_cons]
    omega

/-- C4: `deactivateUsers` makes exactly one HTTP attempt per candidate,
sequentially; a per-user failure (build error, network error, non-200
status) logs a warning and the remaining candidates are still processed. -/
theorem deactivateUsers_per_candidate (hd : Bool) (users : List User)
    (oc : String → CallOutcome) (u : User) :
    ((deactivateUsers hd users oc).countP isReqBuild = users.length) ∧
    ((deactivateUsers hd users oc).countP isReqSend ≤ users.length) ∧
    (∀ (v : User) (rest : List User),
      deactivateUsers hd (v :: rest) oc =
        deactivateUserEvents hd oc v ++ deactivateUsers hd rest oc) ∧
    ((deactivateUserEvents hd oc u).countP isReqBuild = 1) ∧
    (userCallFails (oc u.UserID) = true →
      Event.warnUser u.Username ∈ deactivateUserEvents hd oc u) := by
  refine ⟨deactivateUsers_countBuild hd oc users, deactivateUsers_countSend hd oc users,
    fun v rest => by simp [deactivateUsers], deactivateUserEvents_countBuild hd oc u, ?_⟩
  intro hfail
  unfold deactivateUserEvents
  cases hoc : oc u.UserID with
  | buildErr => simp
  | netErr => simp
  | status c =>
    unfold userCallFails at hfail
    rw [hoc] at hfail
    have hc : (c == 200) = false := by
      cases hcc : (c == 200) <;> simp [hcc] at hfail ⊢
    simp [hc]

theorem deactivateUsers_per_candidate_witness :
    Event.warnUser "bob" ∈
      deactivateUserEvents true (fun _ => CallOutcome.status 503)
        { UserID := "b1", Username := "bob", Email := "", FullName := "",
          LastActivityOn := "", DaysSinceLastActivity := 0 } :=
  (deactivateUsers_per_candidate true [] (fun _ => CallOutcome.status 503)
    { UserID := "b1", Username := "bob", Email := "", FullName := "",
      LastActivityOn := "", DaysSinceLastActivity := 0 }).2.2.2.2 (by decide)

/-- C5: at the confirmation prompt (non-empty candidates, dry-run off) the
program re-prompts on invalid input until `Y`, `N` or `L`: `Y` dispatches
the action over all candidates and ends, `N` ends with no action calls and
the process exits 0, `L` runs the reviewer listing and returns to the
prompt. -/
theorem confirmation_loop_behaviour (hd : Bool) (us : List User)
    (oc : String → CallOutcome) (stdin : List String) (evs : List Event)
    (rest : List String) (line : String) :
    ((confirmKeys.any fun a => normaliseInput line == goToUpper a) = false →
      promptForKeypress confirmKeys (line :: stdin) =
        (Event.promptShown :: Event.invalidInputMsg ::
          (promptForKeypress confirmKeys stdin).1,
         (promptForKeypress confirmKeys stdin).2)) ∧
    (promptForKeypress confirmKeys stdin = (evs, some ("Y", rest)) →
      confirmLoop hd us oc stdin =
        (evs ++ [Event.logInfoDeactivating] ++ deactivateUsers hd us oc, none)) ∧
    (promptForKeypress confirmKeys stdin = (evs, some ("N", rest)) →
      confirmLoop hd us oc stdin = (evs ++ [Event.logAborting], none) ∧
      (∀ e ∈ (confirmLoop hd us oc stdin).1, isActionEvent e = false)) ∧
    (promptForKeypress confirmKeys stdin = (evs, some ("L", rest)) →
      confirmLoop hd us oc stdin =
        (evs ++ [Event.reviewListing] ++ (confirmLoop hd us oc rest).1,
         (confirmLoop hd us oc rest).2)) ∧
    (∀ (env : RunEnv) (age : Int) (dr hd' : Bool) (fuel : Nat) (tr : List Event),
      processUsers env age dr hd' fuel = some (tr, none) →
      mainExitCode false false env age dr hd' fuel = some 0) := by
  refine ⟨?_, ?_, ?_, ?_, ?_⟩
  · intro h
    simp [promptForKeypress, h]
  · intro h
    exact confirmLoop_eq_Y hd us oc stdin evs rest h
  · intro h
    refine ⟨confirmLoop_eq_N hd us oc stdin evs rest h, ?_⟩
    rw [confirmLoop_eq_N hd us oc stdin evs rest h]
    intro e he
    simp only [List.mem_append, List.mem_singleton] at he
    rcases he with he | he
    · rcases promptForKeypress_events confirmKeys stdin e (by rw [h]; exact he) with h1 | h1 <;>
        simp [h1, isActionEvent, isReqBuild, isReqSend]
    · simp [he, isActionEvent, isReqBuild, isReqSend]
  · intro h
    exact confirmLoop_eq_L hd us oc stdin evs rest h
  · intro env age dr hd' fuel tr h
    simp [mainExitCode, h]

theorem confirmation_loop_behaviour_witness :
    promptForKeypress confirmKeys ["x", "n"] =
      (Event.promptShown :: Event.invalidInputMsg ::
        (promptForKeypress confirmKeys ["n"]).1,
       (promptForKeypress confirmKeys ["n"]).2) ∧
    confirmLoop false [] (fun _ => CallOutcome.status 200) ["y"] =
      ([Event.promptShown] ++ [Event.logInfoDeactivating] ++
        deactivateUsers false [] (fun _ => CallOutcome.status 200), none) ∧
    confirmLoop false [] (fun _ => CallOutcome.status 200) ["n"] =
      ([Event.promptShown] ++ [Event.logAborting], none) ∧
    confirmLoop false [] (fun _ => CallOutcome.status 200) ["l", "n"] =
      ([Event.promptShown] ++ [Event.reviewListing] ++
        (confirmLoop false [] (fun _ => CallOutcome.status 200) ["n"]).1,
       (confirmLoop false [] (fun _ => CallOutcome.status 200) ["n"]).2) :=
  ⟨(confirmation_loop_behaviour false [] (fun _ => CallOutcome.status 200) ["n"]
      [Event.promptShown] [] "x").1 (by decide),
   (confirmation_loop_behaviour false [] (fun _ => CallOutcome.status 200) ["y"]
      [Event.promptShown] [] "x").2.1 (by decide),
   ((confirmation_loop_behaviour false [] (fun _ => CallOutcome.status 200) ["n"]
      [Event.promptShown] [] "x").2.2.1 (by decide)).1,
   (confirmation_loop_behaviour false [] (fun _ => CallOutcome.status 200) ["l", "n"]
      [Event.promptShown] ["n"] "x").2.2.2.1 (by decide)⟩

theorem mainExitCode_codes (versionFlag missingConfig : Bool) (env : RunEnv)
    (age : Int) (dr hd : Bool) (fuel : Nat) (c : Nat)
    (h : mainExitCode versionFlag missingConfig env age dr hd fuel = some c) :
    c = 0 ∨ c = 1 ∨ c = 4 ∨ c = 10 ∨ c = 11 ∨ c = 12 ∨ c = 13 ∨ c = 99 := by
  unfold mainExitCode at h
  cases versionFlag with
  | true =>
    simp at h
    omega
  | false =>
    cases missingConfig with
    | true =>
      simp at h
      omega
    | false =>
      simp only [Bool.false_eq_true, if_false] at h
      cases hp : processUsers env age dr hd fuel with
      | none => rw [hp] at h; exact absurd h (by simp)
      | some r =>
        rcases r with ⟨tr, ec⟩
        cases ec with
        | none =>
          rw [hp] at h
          injection h with h1
          omega
        | some c' =>
          rw [hp] at h
          injection h with h1
          subst h1
          rcases processUsers_exitCode env age dr hd fuel tr c' hp with
            h | h | h | h | h | h | h <;> omega

/-- C6 counterexample: with flag parsing fine, no `-version`, and
`MM_DEBUG` unset, a run in which the team listing's body read fails exits
with status 12, outside the claimed set, and a run in which the team
lookup returns HTTP 500 exits with status 4 although no keypress read ever
failed (stdin was never touched). -/
theorem exit_codes_counterexample :
    fullMainExitCode false false false none false
      { teamLookup := .gotStatus 404 .readErr false none,
        pages := fun _ => FetchOutcome.success Body.sentinel,
        stdin := [], callOutcome := fun _ => CallOutcome.status 200, nowSec := 0 }
      180 false false 1 = some 12 ∧
    (12 : Nat) ∉ ([0, 1, 2, 4, 99] : List Nat) ∧
    fullMainExitCode false false false none false
      { teamLookup := .gotStatus 500 (.teams []) false none,
        pages := fun _ => FetchOutcome.success Body.sentinel,
        stdin := [], callOutcome := fun _ => CallOutcome.status 200, nowSec := 0 }
      180 false false 1 = some 4 := by
  refine ⟨by decide, by decide, by decide⟩

/-- C6 (amended): every terminating run exits with one of
0, 1, 2, 4, 10, 11, 12, 13, 99: 0 normal completion or version query;
1 missing configuration or a fatal `log.Fatal`; 2 a command-line parse
error (`flag.ExitOnError`), the unrecovered `MM_DEBUG` `.(bool)` panic, or
the dead top-level `processUsers`-error branch; 4 a keypress-read failure
or a non-200, non-404 team-lookup status; 10-13 the team-listing failures;
99 the team-not-found listing path. -/
theorem exit_codes_amended (flagParseFails versionFlag debugFlagCLI : Bool)
    (mmDebugEnv : Option String) (missingConfig : Bool) (env : RunEnv)
    (age : Int) (dr hd : Bool) (fuel : Nat) (c : Nat) (s : String) :
    (fullMainExitCode flagParseFails versionFlag debugFlagCLI mmDebugEnv missingConfig
        env age dr hd fuel = some c →
      c = 0 ∨ c = 1 ∨ c = 2 ∨ c = 4 ∨ c = 10 ∨ c = 11 ∨ c = 12 ∨ c = 13 ∨ c = 99) ∧
    (fullMainExitCode true versionFlag debugFlagCLI mmDebugEnv missingConfig
        env age dr hd fuel = some 2) ∧
    (fullMainExitCode false false false (some s) missingConfig env age dr hd fuel =
      some 2) := by
  refine ⟨?_, rfl, rfl⟩
  intro h
  unfold fullMainExitCode at h
  cases flagParseFails with
  | true =>
    simp at h
    omega
  | false =>
    cases versionFlag with
    | true =>
      simp at h
      omega
    | false =>
      simp only [Bool.false_eq_true, if_false] at h
      cases hdf : debugFlagFallback debugFlagCLI mmDebugEnv with
      | none =>
        rw [hdf] at h
        simp at h
        omega
      | some b =>
        rw [hdf] at h
        simp only [] at h
        rcases mainExitCode_codes false missingConfig env age dr hd fuel c h with
          h | h | h | h | h | h | h | h <;> omega

theorem exit_codes_amended_witness :
    ((2 : Nat) = 0 ∨ (2 : Nat) = 1 ∨ (2 : Nat) = 2 ∨ (2 : Nat) = 4 ∨ (2 : Nat) = 10 ∨
      (2 : Nat) = 11 ∨ (2 : Nat) = 12 ∨ (2 : Nat) = 13 ∨ (2 : Nat) = 99) ∧
    fullMainExitCode false false false (some "1") false
      { teamLookup := .gotStatus 200 (.teams []) false (some "tid"),
        pages := fun _ => FetchOutcome.success Body.sentinel,
        stdin := [], callOutcome := fun _ => CallOutcome.status 200, nowSec := 0 }
      180 false false 1 = some 2 :=
  ⟨(exit_codes_amended true false false none false
      { teamLookup := .gotStatus 200 (.teams []) false (some "tid"),
        pages := fun _ => FetchOutcome.success Body.sentinel,
        stdin := [], callOutcome := fun _ => CallOutcome.status 200, nowSec := 0 }
      180 false false 1 2 "x").1 (by decide),
   (exit_codes_amended false false false (some "1") false
      { teamLookup := .gotStatus 200 (.teams []) false (some "tid"),
        pages := fun _ => FetchOutcome.success Body.sentinel,
        stdin := [], callOutcome := fun _ => CallOutcome.status 200, nowSec := 0 }
      180 false false 1 2 "1").2.2⟩

/-- C7 is a code bug: with `-debug` absent and `MM_DEBUG` set,
`getEnvWithDefault` returns the environment string and the `.(bool)` type
assertion fails (a run-time panic, modelled as `none`), so the fallback
never completes and debug mode never takes its value from `MM_DEBUG`. -/
theorem mmDebug_fallback_panics :
    debugFlagFallback false (some "true") = none ∧
    getEnvWithDefault (some "true") (GoValue.boolVal false) = GoValue.strVal "true" ∧
    assertToBool (GoValue.strVal "true") = none :=
  ⟨rfl, rfl, rfl⟩

/-- C8: when the fetch loop completes with an empty candidate set,
`processUsers` logs that no inactive users were found and returns `nil`
with no prompt, no reviewer listing and no action HTTP calls, and the
process exits 0. -/
theorem empty_candidates_clean_exit (env : RunEnv) (age : Int) (dr hd : Bool)
    (fuel : Nat) (id : String)
    (h1 : getTeamID env.teamLookup = .ok id) (h2 : id ≠ "")
    (h3 : fetchLoop env.pages age env.nowSec fuel 0 [] = .done []) :
    processUsers env age dr hd fuel = some ([Event.logNoUsersFound], none) ∧
    (∀ e ∈ ([Event.logNoUsersFound] : List Event),
      e ≠ Event.promptShown ∧ e ≠ Event.reviewListing ∧ isActionEvent e = false) ∧
    mainExitCode false false env age dr hd fuel = some 0 := by
  have hp : processUsers env age dr hd fuel = some ([Event.logNoUsersFound], none) := by
    unfold processUsers
    rw [h1]
    simp [h2, h3]
  exact ⟨hp, by decide, by simp [mainExitCode, hp]⟩

theorem empty_candidates_clean_exit_witness :
    processUsers
      { teamLookup := .gotStatus 200 (.teams []) false (some "tid"),
        pages := fun _ => FetchOutcome.success Body.sentinel,
        stdin := [], callOutcome := fun _ => CallOutcome.status 200, nowSec := 0 }
      180 false false 1 = some ([Event.logNoUsersFound], none) :=
  (empty_candidates_clean_exit
    { teamLookup := .gotStatus 200 (.teams []) false (some "tid"),
      pages := fun _ => FetchOutcome.success Body.sentinel,
      stdin := [], callOutcome := fun _ => CallOutcome.status 200, nowSec := 0 }
    180 false false 1 "tid" (by decide) (by decide) (by decide)).1

/-- C9: re-processing the same page body with the same reference time
leaves the candidate set unchanged (keyed overwrite, not duplication), and
`callGetUsers` never removes an entry, so the set only grows across the
fetch loop. -/
theorem candidate_accumulation (age nowSec : Int) (us : List UserJson)
    (m : AssocMap) (outcome : FetchOutcome) (k : String) :
    (mapLookup (applyPage age nowSec us (applyPage age nowSec us m)) k =
      mapLookup (applyPage age nowSec us m) k) ∧
    ((callGetUsers (.success (.wellFormed us))
        (callGetUsers (.success (.wellFormed us)) m age nowSec).out age nowSec).out =
      applyPage age nowSec us (applyPage age nowSec us m)) ∧
    (mapLookup m k ≠ none → mapLookup (callGetUsers outcome m age nowSec).out k ≠ none) := by
  refine ⟨?_, rfl, ?_⟩
  · rw [mapLookup_applyPage, mapLookup_applyPage]
    cases hpv : pageValue age nowSec us k <;> simp [hpv]
  · intro hm
    cases outcome with
    | buildErr => simpa [callGetUsers] using hm
    | netErr => simpa [callGetUsers] using hm
    | readErr => simpa [callGetUsers] using hm
    | success b =>
      cases b with
      | sentinel => simpa [callGetUsers] using hm
      | wellFormed us' =>
        simp only [callGetUsers]
        rw [mapLookup_applyPage]
        cases hpv : pageValue age nowSec us' k <;> simp [hpv, hm]
      | malformed pre =>
        simp only [callGetUsers]
        rw [mapLookup_applyPage]
        cases hpv : pageValue age nowSec pre k <;> simp [hpv, hm]

theorem candidate_accumulation_witness :
    mapLookup
      (callGetUsers (.success Body.sentinel)
        [("a1", { UserID := "a1", Username := "alice", Email := "", FullName := "",
                  LastActivityOn := "", DaysSinceLastActivity := 200 })] 180 0).out
      "a1" ≠ none :=
  (candidate_accumulation 180 0 []
    [("a1", { UserID := "a1", Username := "alice", Email := "", FullName := "",
              LastActivityOn := "", DaysSinceLastActivity := 200 })]
    (.success Body.sentinel) "a1").2.2 (by decide)

/-- C10: a fetched user whose `last_activity_at` is absent or zero is
treated as last active at the Unix epoch: the computed age is the number of
days since the epoch, and such a user is a candidate for any threshold up
to that age provided they are not a system admin and `delete_at` is zero. -/
theorem never_active_user (u : UserJson) (age nowSec : Int) (m : AssocMap)
    (h : u.lastActivityAt = none ∨ u.lastActivityAt = some 0) :
    jsonInt u.lastActivityAt = 0 ∧
    DaysAgo (jsonInt u.lastActivityAt) nowSec = nowSec.tdiv 86400 ∧
    (strContains (jsonStr u.roles) "system_admin" = false →
      jsonInt u.deleteAt = 0 → age ≤ nowSec.tdiv 86400 →
      includeUser u age nowSec = true ∧
      mapLookup (applyUser age nowSec m u) (jsonStr u.id) = some (mkUser u nowSec)) := by
  have h0 : jsonInt u.lastActivityAt = 0 := by
    rcases h with h | h <;> simp [jsonInt, h]
  have hdays : DaysAgo (jsonInt u.lastActivityAt) nowSec = nowSec.tdiv 86400 := by
    rw [h0]
    unfold DaysAgo
    norm_num
  refine ⟨h0, hdays, ?_⟩
  intro hroles hdel hage
  have hinc : includeUser u age nowSec = true := by
    unfold includeUser
    rw [Bool.and_eq_true, Bool.and_eq_true]
    refine ⟨⟨by simp [hroles], decide_eq_true ?_⟩, by simp [hdel]⟩
    rw [ge_iff_le, hdays]
    exact hage
  refine ⟨hinc, ?_⟩
  simp [applyUser, hinc, mapLookup_mapInsert]

theorem never_active_user_witness :
    includeUser
      { id := some "nv", username := some "never", email := none, firstName := none,
        lastName := none, lastActivityAt := none, deleteAt := some 0,
        roles := some "system_user" } 100 17280000 = true :=
  ((never_active_user
    { id := some "nv", username := some "never", email := none, firstName := none,
      lastName := none, lastActivityAt := none, deleteAt := some 0,
      roles := some "system_user" } 100 17280000 [] (Or.inl rfl)).2.2
    (by decide) (by decide) (by decide)).1

end MMClean
